import Mathlib

/-!
Verification of the QPE (Quantum Phase Estimation) adapter
(`src/quantum_qpe/main.py`) against its natural-language specification.

The Python module is a thin adapter: a validated parameter schema
(`QPEParams`, pydantic `Literal`/`confloat`/`conint` fields), a circuit
builder (`qpe_circuit` / `controlled_unitary` / `unitary_operator`), and an
executor (`QPEAlgorithm.execute`) that runs the circuit on a PennyLane
backend, takes the argmax of the returned probability vector and repackages
the arithmetic into a typed result (`QPEResult`).

Modelling conventions:
- Python floats are modelled as rationals (`ℚ`); all the adapter arithmetic
  (division by `2^precision`, absolute value, comparisons in argmax/max) is
  exact on the values the spec talks about.
- The PennyLane simulation is delegated to an opaque `Backend` function
  that may fail (modelling arbitrary exceptions raised during simulation);
  `execute` wraps any such failure uniformly, as the `try/except` in the
  source does.
- For the concrete end-to-end claim the backend is modelled by an exact
  state-vector simulator over the cyclotomic ring ℚ(ζ₈) (PennyLane itself
  is not part of this repository; the spec fixes the textbook gate
  semantics).
-/

/-- The three allowed unitary kinds: `Literal["rotation", "phase", "z"]`
(main.py line 17). -/
inductive UnitaryKind where
  | rotation
  | phase
  | z
deriving DecidableEq, Repr

/-- Validated QPE parameters, mirroring the fields of `QPEParams`
(main.py lines 14-28): `unitary`, `angle` (float, here ℚ), `precision`
(int, validated ≥ 1, so ℕ here). -/
structure QPEParams where
  unitary : UnitaryKind
  angle : ℚ
  precision : ℕ
deriving DecidableEq, Repr

/-- The range/enum constraints pydantic attaches to `QPEParams`:
`angle ∈ [0,1]` (`confloat(ge=0.0, le=1.0)`), `precision ∈ [1,10]`
(`conint(ge=1, le=10)`); the unitary kind is already an element of the
enum by type. -/
def QPEParams.Valid (p : QPEParams) : Prop :=
  0 ≤ p.angle ∧ p.angle ≤ 1 ∧ 1 ≤ p.precision ∧ p.precision ≤ 10

instance (p : QPEParams) : Decidable p.Valid := by
  unfold QPEParams.Valid; infer_instance

/-- Raw input to parameter construction, before pydantic validation.
`none` models an omitted field (the source gives `unitary` and `precision`
defaults and makes `angle` required, main.py lines 17-28). -/
structure RawParams where
  unitary : Option String
  angle : Option ℚ
  precision : Option ℤ
deriving DecidableEq, Repr

/-- The error kind hierarchy seen by the adapter: the framework's
`ValidationError` (the only kind the adapter itself ever raises,
main.py line 139) and any other exception kind a backend call may raise. -/
inductive FrameworkError where
  | validationError (message : String)
  | otherError (message : String)
deriving DecidableEq, Repr

/-- The message carried by an error (Python `str(e)`). -/
def FrameworkError.msg : FrameworkError → String
  | .validationError m => m
  | .otherError m => m

/-- Whether an error is of the `ValidationError` kind. -/
def FrameworkError.isValidation : FrameworkError → Bool
  | .validationError _ => true
  | .otherError _ => false

/-- The `Literal["rotation", "phase", "z"]` membership test pydantic
performs on the `unitary` field (main.py line 17). -/
def parseUnitary (s : String) : Option UnitaryKind :=
  if s = "rotation" then some UnitaryKind.rotation
  else if s = "phase" then some UnitaryKind.phase
  else if s = "z" then some UnitaryKind.z
  else none

/-- Modelled from the spec: construction of a `QPEParams` record by the
pydantic machinery behind the field declarations of main.py lines 14-28
(the pydantic library and the `AlgorithmParams` base class are not part of
this repository). Per the spec, construction either yields a record or
fails with the `ValidationError` kind when `unitary` is not one of the
three literals, `angle` is outside [0,1], or `precision` is outside
[1,10]; omitted fields take the declared defaults (`unitary="rotation"`,
`precision=4`) and an omitted `angle` is an error (`Field(...)`). -/
def mkQPEParams (raw : RawParams) : Except FrameworkError QPEParams :=
  match (match raw.unitary with
         | none => some UnitaryKind.rotation
         | some s => parseUnitary s) with
  | none => .error (FrameworkError.validationError
      "unitary: input should be one of rotation, phase or z")
  | some u =>
    match raw.angle with
    | none => .error (FrameworkError.validationError "angle: field required")
    | some a =>
      if 0 ≤ a ∧ a ≤ 1 then
        match raw.precision with
        | none => .ok { unitary := u, angle := a, precision := 4 }
        | some n =>
          if 1 ≤ n ∧ n ≤ 10 then
            .ok { unitary := u, angle := a, precision := n.toNat }
          else .error (FrameworkError.validationError
              "precision: input should be in the interval [1, 10]")
      else .error (FrameworkError.validationError
          "angle: input should be in the interval [0, 1]")

/-- Whether an `Except` computation succeeded. -/
def isOkE {ε α : Type} : Except ε α → Bool
  | .ok _ => true
  | .error _ => false

/-- Gates emitted by the circuit builder. `controlled k a c t` is the
single-qubit unitary of kind `k` with rotation parameter `2π·a` (as built
by `unitary_operator`, main.py lines 71-78), controlled on wire `c` and
applied to wire `t` (`qml.ctrl`, line 83). `inverseQFT ws` is
`qml.adjoint(qml.QFT)(wires=ws)` (line 99). -/
inductive Gate where
  | pauliX (wire : ℕ)
  | hadamard (wire : ℕ)
  | controlled (kind : UnitaryKind) (angle : ℚ) (control : ℕ) (target : ℕ)
  | inverseQFT (wires : List ℕ)
deriving DecidableEq, Repr

/-- Wires a gate acts on. -/
def Gate.wires : Gate → List ℕ
  | .pauliX w => [w]
  | .hadamard w => [w]
  | .controlled _ _ c t => [c, t]
  | .inverseQFT ws => ws

/-- `controlled_unitary(control_wire, target_wire, power)` (main.py lines
80-83): the controlled unitary applied `2^power` times. -/
def controlled_unitary (p : QPEParams) (control_wire target_wire power : ℕ) :
    List Gate :=
  List.replicate (2 ^ power)
    (Gate.controlled p.unitary p.angle control_wire target_wire)

/-- `qpe_circuit` (main.py lines 85-99): Pauli-X on the eigenstate wire
`precision`; Hadamard on each estimation wire; for each estimation wire
`i`, `controlled_unitary(i, precision, i)`; inverse QFT on the estimation
wires. -/
def qpe_circuit (p : QPEParams) : List Gate :=
  [Gate.pauliX p.precision]
    ++ (List.range p.precision).map Gate.hadamard
    ++ ((List.range p.precision).map
          (fun i => controlled_unitary p i p.precision i)).flatten
    ++ [Gate.inverseQFT (List.range p.precision)]

/-- Helper for `npArgmax`: fold over the remaining entries keeping the
index of the first maximum seen so far (`np.argmax` keeps the first index
on ties: a later entry replaces the current best only when strictly
greater). -/
def argmaxAux : List ℚ → ℕ → ℕ → ℚ → ℕ
  | [], _, best, _ => best
  | x :: xs, i, best, bestv =>
    if bestv < x then argmaxAux xs (i + 1) i x
    else argmaxAux xs (i + 1) best bestv

/-- `np.argmax` on a vector: index of the first occurrence of the maximum;
`none` on the empty vector (numpy raises there). -/
def npArgmax : List ℚ → Option ℕ
  | [] => none
  | x :: xs => some (argmaxAux xs 1 0 x)

/-- `np.max` on a vector: `none` on the empty vector (numpy raises there). -/
def npMax : List ℚ → Option ℚ
  | [] => none
  | x :: xs => some (xs.foldl max x)

/-- A metadata value: the `meta` dict of the source holds strings and one
integer (main.py lines 126-131). -/
inductive MetaValue where
  | s (v : String)
  | n (v : ℕ)
deriving DecidableEq, Repr

/-- The result record `QPEResult` (main.py lines 31-40) together with the
`meta` map contributed by the `AlgorithmResult` base. -/
structure QPEResult where
  estimated_phase : ℚ
  true_phase : ℚ
  phase_error : ℚ
  measurement_probability : ℚ
  measured_value : ℕ
  precision_bits : ℕ
  unitary_type : UnitaryKind
  meta : List (String × MetaValue)
deriving DecidableEq, Repr

/-- A simulation backend: given the device width (`n_qubits`), the gate
list and the measured wires, return the probability vector over the
measured wires (`qml.probs`), or raise. The qnode execution of main.py
lines 101-108 is this single call. -/
def Backend : Type :=
  ℕ → List Gate → List ℕ → Except FrameworkError (List ℚ)

/-- `QPEAlgorithm.execute` (main.py lines 54-139): build the circuit, run
the backend, take `np.argmax` / `np.max` of the probability vector, and
package the result; any exception raised inside the `try` block (backend
failure, or numpy's error on an empty vector) is re-raised as
`ValidationError("QPE execution failed: " + str(e))`. -/
def execute (backend : Backend) (p : QPEParams) :
    Except FrameworkError QPEResult :=
  match backend (p.precision + 1) (qpe_circuit p) (List.range p.precision) with
  | .error e =>
    .error (FrameworkError.validationError
      ("QPE execution failed: " ++ e.msg))
  | .ok probabilities =>
    match npArgmax probabilities, npMax probabilities with
    | some measured_value, some max_probability =>
      .ok
        { estimated_phase := (measured_value : ℚ) / 2 ^ p.precision
          true_phase := p.angle
          phase_error := |(measured_value : ℚ) / 2 ^ p.precision - p.angle|
          measurement_probability := max_probability
          measured_value := measured_value
          precision_bits := p.precision
          unitary_type := p.unitary
          meta :=
            [("algorithm", MetaValue.s "QPE"),
             ("provider", MetaValue.s "pennylane"),
             ("device", MetaValue.s "default.qubit"),
             ("n_qubits", MetaValue.n (p.precision + 1))] }
    | _, _ =>
      .error (FrameworkError.validationError
        "QPE execution failed: attempt to get argmax of an empty sequence")

/-- The full pipeline as the framework drives it: construct parameters,
then execute. Used to state that validation failure happens before any
circuit is built or backend consulted. -/
def runQPE (backend : Backend) (raw : RawParams) :
    Except FrameworkError QPEResult :=
  (mkQPEParams raw).bind (execute backend)

/-! ### Exact simulator over ℚ(ζ₈)

Modelled from the spec: the PennyLane `default.qubit` simulator is not part
of this repository; §4.2 of the spec fixes the textbook semantics of the
gates the circuit uses (Pauli-X, Hadamard, controlled
rotation/phase-shift/Z-rotation parameterized by `2π·angle`, inverse
quantum Fourier transform), and §8 fixes the expected readout. For
`angle = 1/2` all amplitudes lie in the cyclotomic field ℚ(ζ₈),
ζ₈ = e^{iπ/4}, so the simulation below is exact. PennyLane's wire
convention is used: wire 0 is the most significant bit of the basis-state
index returned by `qml.probs`. -/

/-- An element `a + b·ζ + c·ζ² + d·ζ³` of ℚ(ζ₈), where `ζ = e^{iπ/4}`
satisfies `ζ⁴ = −1`. -/
structure Zeta8 where
  a : ℚ
  b : ℚ
  c : ℚ
  d : ℚ
deriving DecidableEq, Repr

instance : Zero Zeta8 := ⟨⟨0, 0, 0, 0⟩⟩

instance : One Zeta8 := ⟨⟨1, 0, 0, 0⟩⟩

instance : Add Zeta8 :=
  ⟨fun x y => ⟨x.a + y.a, x.b + y.b, x.c + y.c, x.d + y.d⟩⟩

instance : Neg Zeta8 := ⟨fun x => ⟨-x.a, -x.b, -x.c, -x.d⟩⟩

/-- Multiplication in ℚ(ζ₈), reducing powers with `ζ⁴ = −1`. -/
instance : Mul Zeta8 :=
  ⟨fun x y =>
    ⟨x.a * y.a - x.b * y.d - x.c * y.c - x.d * y.b,
     x.a * y.b + x.b * y.a - x.c * y.d - x.d * y.c,
     x.a * y.c + x.b * y.b + x.c * y.a - x.d * y.d,
     x.a * y.d + x.b * y.c + x.c * y.b + x.d * y.a⟩⟩

/-- Complex conjugation on ℚ(ζ₈): `conj ζ = ζ⁻¹ = −ζ³`. -/
def Zeta8.conj (x : Zeta8) : Zeta8 := ⟨x.a, -x.d, -x.c, -x.b⟩

/-- Scalar multiplication by a rational. -/
def Zeta8.smul (q : ℚ) (x : Zeta8) : Zeta8 := ⟨q * x.a, q * x.b, q * x.c, q * x.d⟩

/-- The power `ζ^(k mod 8)`. -/
def zetaPow (k : ℕ) : Zeta8 :=
  match k % 8 with
  | 0 => ⟨1, 0, 0, 0⟩
  | 1 => ⟨0, 1, 0, 0⟩
  | 2 => ⟨0, 0, 1, 0⟩
  | 3 => ⟨0, 0, 0, 1⟩
  | 4 => ⟨-1, 0, 0, 0⟩
  | 5 => ⟨0, -1, 0, 0⟩
  | 6 => ⟨0, 0, -1, 0⟩
  | _ => ⟨0, 0, 0, -1⟩

/-- The inverse power `ζ^(−k) = ζ^((8 − k mod 8) mod 8)`. -/
def zetaPowNeg (k : ℕ) : Zeta8 := zetaPow ((8 - k % 8) % 8)

/-- `e^{iπt}` for a rational `t` whose denominator divides 4 (i.e. `4t ∈ ℤ`):
it equals `ζ^(4t)`. Other angles fall outside ℚ(ζ₈) and are unsupported. -/
def expPiI (t : ℚ) : Option Zeta8 :=
  if (4 * t).den = 1 then some (zetaPow ((4 * t).num % 8).toNat) else none

/-- `cos (π t)`, via `(e^{iπt} + e^{−iπt})/2`. -/
def cosPi (t : ℚ) : Option Zeta8 := do
  let p ← expPiI t
  let m ← expPiI (-t)
  pure (Zeta8.smul (1/2) (p + m))

/-- `sin (π t)`, via `(e^{iπt} − e^{−iπt})/(2i)`; `1/i = −ζ²`. -/
def sinPi (t : ℚ) : Option Zeta8 := do
  let p ← expPiI t
  let m ← expPiI (-t)
  pure (Zeta8.smul (1/2) ((p + -m) * ⟨0, 0, -1, 0⟩))

/-- `1/√2 = (ζ − ζ³)/2` in ℚ(ζ₈). -/
def invSqrt2 : Zeta8 := ⟨0, 1/2, 0, -1/2⟩

/-- Iterated product, for the `(1/√2)^m` normalization of the QFT. -/
def Zeta8.pow (x : Zeta8) : ℕ → Zeta8
  | 0 => 1
  | n + 1 => x * Zeta8.pow x n

/-- Sum of a list of amplitudes. -/
def sumZ (l : List Zeta8) : Zeta8 := l.foldl (· + ·) 0

/-- A 2×2 complex matrix over ℚ(ζ₈). -/
structure Mat2 where
  m00 : Zeta8
  m01 : Zeta8
  m10 : Zeta8
  m11 : Zeta8
deriving DecidableEq, Repr

/-- The matrix of the single-qubit unitary `unitary_operator` builds
(main.py lines 71-78), with rotation parameter `θ = 2π·angle`:
`RY(θ)`, `PhaseShift(θ)` or `RZ(θ)`; `none` when the entries fall outside
ℚ(ζ₈). -/
def gateMatrix (k : UnitaryKind) (angle : ℚ) : Option Mat2 :=
  match k with
  | .rotation => do
    let c ← cosPi angle
    let s ← sinPi angle
    pure ⟨c, -s, s, c⟩
  | .phase => do
    let e ← expPiI (2 * angle)
    pure ⟨1, 0, 0, e⟩
  | .z => do
    let em ← expPiI (-angle)
    let ep ← expPiI angle
    pure ⟨em, 0, 0, ep⟩

/-- The Hadamard matrix `(1/√2)·[[1,1],[1,−1]]`. -/
def hadamardMat : Mat2 := ⟨invSqrt2, invSqrt2, invSqrt2, -invSqrt2⟩

/-- Bit of `idx` at binary position `pos` (position 0 is least
significant). -/
def getBit (idx pos : ℕ) : ℕ := idx / 2 ^ pos % 2

/-- `idx` with the bit at position `pos` replaced by `b`. -/
def setBit (idx pos b : ℕ) : ℕ := idx - getBit idx pos * 2 ^ pos + b * 2 ^ pos

/-- Apply a single-qubit matrix on wire `w` of an `n`-qubit state vector
(wire 0 is the most significant bit of the index). -/
def apply1Q (n w : ℕ) (M : Mat2) (st : List Zeta8) : List Zeta8 :=
  (List.range (2 ^ n)).map fun idx =>
    let pos := n - 1 - w
    let v0 := st.getD (setBit idx pos 0) 0
    let v1 := st.getD (setBit idx pos 1) 0
    if getBit idx pos = 0 then M.m00 * v0 + M.m01 * v1
    else M.m10 * v0 + M.m11 * v1

/-- Apply a single-qubit matrix on wire `tw`, controlled on wire `cw`. -/
def applyCtrl (n cw tw : ℕ) (M : Mat2) (st : List Zeta8) : List Zeta8 :=
  (List.range (2 ^ n)).map fun idx =>
    if getBit idx (n - 1 - cw) = 0 then st.getD idx 0
    else
      let pos := n - 1 - tw
      let v0 := st.getD (setBit idx pos 0) 0
      let v1 := st.getD (setBit idx pos 1) 0
      if getBit idx pos = 0 then M.m00 * v0 + M.m01 * v1
      else M.m10 * v0 + M.m11 * v1

/-- Apply Pauli-X on wire `w`. -/
def applyX (n w : ℕ) (st : List Zeta8) : List Zeta8 :=
  (List.range (2 ^ n)).map fun idx =>
    let pos := n - 1 - w
    st.getD (setBit idx pos (1 - getBit idx pos)) 0

/-- Apply the inverse QFT on wires `0..m−1` (the most significant bits):
`|x, low⟩ ↦ (1/√2)^m · Σ_k e^{−2πi·x·k/2^m} |k, low⟩`, with
`e^{−2πi/2^m} = ζ^{−8/2^m}`. Supported when the wire list is exactly
`range m` with `2^m` dividing 8 (deeper registers leave ℚ(ζ₈) only in the
normalization, but the expected call has `m ≤ 3`). -/
def applyInvQFT (n : ℕ) (ws : List ℕ) (st : List Zeta8) :
    Option (List Zeta8) :=
  let m := ws.length
  if ws = List.range m ∧ m ≤ 3 ∧ m ≤ n then
    some ((List.range (2 ^ n)).map fun idx =>
      let low := idx % 2 ^ (n - m)
      let k := idx / 2 ^ (n - m)
      Zeta8.pow invSqrt2 m *
        sumZ ((List.range (2 ^ m)).map fun x =>
          zetaPowNeg (8 / 2 ^ m * x * k) * st.getD (x * 2 ^ (n - m) + low) 0))
  else none

/-- One simulation step. -/
def simGate (n : ℕ) (st : List Zeta8) : Gate → Option (List Zeta8)
  | .pauliX w => some (applyX n w st)
  | .hadamard w => some (apply1Q n w hadamardMat st)
  | .controlled k a c t => (gateMatrix k a).map fun M => applyCtrl n c t M st
  | .inverseQFT ws => applyInvQFT n ws st

/-- The basis state `|0…0⟩` on `n` qubits. -/
def initState (n : ℕ) : List Zeta8 :=
  (List.range (2 ^ n)).map fun idx => if idx = 0 then 1 else 0

/-- Run a gate list on `n` qubits from `|0…0⟩`. -/
def simulate (n : ℕ) (gates : List Gate) : Option (List Zeta8) :=
  gates.foldlM (simGate n) (initState n)

/-- Exact probabilities of the `2^m` outcomes of the first `m` wires
(most significant bits), marginalizing over the rest: each entry is
`Σ_low |amp(x·2^(n−m)+low)|²`, a real element of ℚ(ζ₈). -/
def probsOf (n m : ℕ) (st : List Zeta8) : List Zeta8 :=
  (List.range (2 ^ m)).map fun x =>
    sumZ ((List.range (2 ^ (n - m))).map fun low =>
      let z := st.getD (x * 2 ^ (n - m) + low) 0
      z * z.conj)

/-- The IEEE double-precision value of √2, as an exact rational. -/
def sqrt2F : ℚ := 6369051672525773 / 4503599627370496

/-- Float readout of a real element of ℚ(ζ₈): an element fixed by
conjugation has the form `a + b·(ζ − ζ³) = a + b·√2` (coefficient of ζ²
zero, ζ³-coefficient the negative of the ζ-coefficient); its double
approximation substitutes the double value of √2. -/
def flReal (z : Zeta8) : ℚ := z.a + (z.b - z.d) / 2 * sqrt2F

/-- Modelled from the spec: the PennyLane backend call of main.py lines
101-108 (device `default.qubit` on `n` wires, qnode returning
`qml.probs(wires=range(precision))`). It simulates the gate list exactly
over ℚ(ζ₈) and reads the probabilities out as double-precision values.
Circuits whose amplitudes leave ℚ(ζ₈) are reported as a backend error. -/
def pennylaneBackend : Backend := fun n gates wires =>
  if wires = List.range wires.length ∧ wires.length ≤ n then
    match simulate n gates with
    | some st => .ok ((probsOf n wires.length st).map flReal)
    | none => .error (FrameworkError.otherError
        "unsupported gate parameter in modelled simulator")
  else .error (FrameworkError.otherError
      "unsupported wire layout in modelled simulator")

/-! ### Helper lemmas about argmax, max and execute -/

lemma argmaxAux_lt (xs : List ℚ) : ∀ (i best : ℕ) (v : ℚ), best < i →
    argmaxAux xs i best v < i + xs.length := by
  induction xs with
  | nil =>
    intro i best v h
    simpa [argmaxAux] using h
  | cons x xs ih =>
    intro i best v h
    simp only [argmaxAux, List.length_cons]
    split
    · have hrec := ih (i + 1) i x (Nat.lt_succ_self i)
      omega
    · have hrec := ih (i + 1) best v (h.trans (Nat.lt_succ_self i))
      omega

lemma npArgmax_lt_length {l : List ℚ} {k : ℕ} (h : npArgmax l = some k) :
    k < l.length := by
  cases l with
  | nil => simp [npArgmax] at h
  | cons x xs =>
    simp only [npArgmax, Option.some.injEq] at h
    subst h
    have := argmaxAux_lt xs 1 0 x Nat.one_pos
    simp only [List.length_cons]
    omega

lemma foldl_max_mem (xs : List ℚ) :
    ∀ acc : ℚ, xs.foldl max acc = acc ∨ xs.foldl max acc ∈ xs := by
  induction xs with
  | nil => intro acc; left; rfl
  | cons x xs ih =>
    intro acc
    simp only [List.foldl_cons]
    rcases ih (max acc x) with h | h
    · rw [h]
      rcases le_total acc x with hle | hle
      · rw [max_eq_right hle]; right; exact List.mem_cons_self x xs
      · rw [max_eq_left hle]; left; rfl
    · right; exact List.mem_cons_of_mem x h

lemma npMax_mem {l : List ℚ} {m : ℚ} (h : npMax l = some m) : m ∈ l := by
  cases l with
  | nil => simp [npMax] at h
  | cons x xs =>
    simp only [npMax, Option.some.injEq] at h
    subst h
    rcases foldl_max_mem xs x with h | h
    · rw [h]; exact List.mem_cons_self x xs
    · exact List.mem_cons_of_mem x h

/-- The metadata map `execute` puts on every successful result
(main.py lines 126-131). -/
def metaOf (p : QPEParams) : List (String × MetaValue) :=
  [("algorithm", MetaValue.s "QPE"),
   ("provider", MetaValue.s "pennylane"),
   ("device", MetaValue.s "default.qubit"),
   ("n_qubits", MetaValue.n (p.precision + 1))]

/-- Extraction lemma: a successful `execute` run with backend probabilities
`probs` produced exactly the record the source constructs on lines 118-132. -/
lemma execute_ok_elim {backend : Backend} {p : QPEParams} {r : QPEResult}
    {probs : List ℚ}
    (hb : backend (p.precision + 1) (qpe_circuit p) (List.range p.precision) =
      .ok probs)
    (hr : execute backend p = .ok r) :
    ∃ mv mp, npArgmax probs = some mv ∧ npMax probs = some mp ∧
      r = { estimated_phase := (mv : ℚ) / 2 ^ p.precision
            true_phase := p.angle
            phase_error := |(mv : ℚ) / 2 ^ p.precision - p.angle|
            measurement_probability := mp
            measured_value := mv
            precision_bits := p.precision
            unitary_type := p.unitary
            meta := metaOf p } := by
  unfold execute at hr
  rw [hb] at hr
  cases probs with
  | nil => simp [npArgmax, npMax] at hr
  | cons x xs =>
    simp only [npArgmax, npMax, Except.ok.injEq] at hr
    exact ⟨argmaxAux xs 1 0 x, xs.foldl max x, rfl, rfl, hr.symm⟩

/-! ### Concrete instances used by the claim theorems and witnesses -/

/-- The parameters of the repository's own test:
`QPEParams(unitary="rotation", angle=0.5, precision=3)`. -/
def pEx3 : QPEParams :=
  { unitary := UnitaryKind.rotation, angle := 1/2, precision := 3 }

/-- The result `execute` produces for `pEx3` on the modelled PennyLane
backend. -/
def resultC4 : QPEResult :=
  { estimated_phase := 1/4
    true_phase := 1/2
    phase_error := 1/4
    measurement_probability := 1/4
    measured_value := 2
    precision_bits := 3
    unitary_type := UnitaryKind.rotation
    meta := metaOf pEx3 }

/-- A deterministic stub backend returning a fixed three-entry vector. -/
def okBackend : Backend := fun _ _ _ => .ok [1/2, 1/4, 1/4]

/-- A deterministic stub backend returning the uniform distribution on
eight outcomes. -/
def okBackend8 : Backend := fun _ _ _ => .ok (List.replicate 8 (1/8))

/-- A backend that raises an arbitrary (non-validation) exception. -/
def boomBackend : Backend := fun _ _ _ =>
  .error (FrameworkError.otherError "boom")

/-- The result `execute` produces for `pEx3` on `okBackend`. -/
def exResult : QPEResult :=
  { estimated_phase := 0
    true_phase := 1/2
    phase_error := 1/2
    measurement_probability := 1/2
    measured_value := 0
    precision_bits := 3
    unitary_type := UnitaryKind.rotation
    meta := metaOf pEx3 }

/-- The result `execute` produces for `pEx3` on `okBackend8`. -/
def exResult8 : QPEResult :=
  { estimated_phase := 0
    true_phase := 1/2
    phase_error := 1/2
    measurement_probability := 1/8
    measured_value := 0
    precision_bits := 3
    unitary_type := UnitaryKind.rotation
    meta := metaOf pEx3 }

lemma pEx3_valid : pEx3.Valid :=
  of_decide_eq_true (by with_unfolding_all rfl)

set_option maxRecDepth 10000 in
/-- C4: for `unitary="rotation"`, `angle=0.5`, `precision=3`, `execute`
returns a result with `estimated_phase = 0.25` and a metadata `provider`
entry identifying the PennyLane backend. The backend is the exact ℚ(ζ₈)
state-vector model of the PennyLane simulation; the whole run (circuit
construction, simulation, argmax readout) is evaluated inside the kernel. -/
theorem execute_rotation_half_precision3 :
    execute pennylaneBackend pEx3 = .ok resultC4 ∧
    resultC4.estimated_phase = 1/4 ∧
    ("provider", MetaValue.s "pennylane") ∈ resultC4.meta := by
  refine ⟨by with_unfolding_all rfl, rfl, by simp [resultC4, metaOf]⟩

/-- C1: for every valid parameter set, a successful `execute` run satisfies
`estimated_phase = measured_value / 2^precision` exactly,
`phase_error = |estimated_phase − angle|` exactly, and
`measurement_probability` equals the maximum value of the probability
vector the backend returned (main.py lines 110-116). -/
theorem execute_phase_arithmetic (backend : Backend) (p : QPEParams)
    (probs : List ℚ) (r : QPEResult) (hv : p.Valid)
    (hb : backend (p.precision + 1) (qpe_circuit p) (List.range p.precision) =
      .ok probs)
    (hr : execute backend p = .ok r) :
    r.estimated_phase = (r.measured_value : ℚ) / 2 ^ p.precision ∧
    r.phase_error = |r.estimated_phase - p.angle| ∧
    npMax probs = some r.measurement_probability := by
  obtain ⟨mv, mp, hma, hmm, rfl⟩ := execute_ok_elim hb hr
  exact ⟨rfl, rfl, hmm⟩

/-- Witness for C1: the concrete run of `execute` on `okBackend` at `pEx3`. -/
theorem execute_phase_arithmetic_witness :
    exResult.estimated_phase = (exResult.measured_value : ℚ) / 2 ^ pEx3.precision ∧
    exResult.phase_error = |exResult.estimated_phase - pEx3.angle| ∧
    npMax [1/2, 1/4, 1/4] = some exResult.measurement_probability :=
  execute_phase_arithmetic okBackend pEx3 [1/2, 1/4, 1/4] exResult
    pEx3_valid rfl (by with_unfolding_all rfl)

/-- C6: for every valid parameter set, when the backend returns a genuine
probability vector over the `2^precision` outcomes (correct length,
non-negative entries, total mass 1), the successful result satisfies
`measured_value < 2^precision` (it is a ℕ, hence non-negative) and
`0 ≤ measurement_probability ≤ 1`. -/
theorem execute_measured_range (backend : Backend) (p : QPEParams)
    (probs : List ℚ) (r : QPEResult) (hv : p.Valid)
    (hb : backend (p.precision + 1) (qpe_circuit p) (List.range p.precision) =
      .ok probs)
    (hlen : probs.length = 2 ^ p.precision)
    (hnn : ∀ q ∈ probs, 0 ≤ q)
    (hsum : probs.sum = 1)
    (hr : execute backend p = .ok r) :
    r.measured_value < 2 ^ p.precision ∧
    0 ≤ r.measurement_probability ∧ r.measurement_probability ≤ 1 := by
  obtain ⟨mv, mp, hma, hmm, rfl⟩ := execute_ok_elim hb hr
  have hlt : mv < 2 ^ p.precision := hlen ▸ npArgmax_lt_length hma
  have hmem : mp ∈ probs := npMax_mem hmm
  exact ⟨hlt, hnn mp hmem, hsum ▸ List.single_le_sum hnn mp hmem⟩

/-- Witness for C6: the uniform eight-outcome backend at `pEx3`. -/
theorem execute_measured_range_witness :
    exResult8.measured_value < 2 ^ pEx3.precision ∧
    0 ≤ exResult8.measurement_probability ∧
    exResult8.measurement_probability ≤ 1 :=
  execute_measured_range okBackend8 pEx3 (List.replicate 8 (1/8)) exResult8
    pEx3_valid rfl (by with_unfolding_all rfl)
    (fun q hq => by rw [List.eq_of_mem_replicate hq]; norm_num)
    (by simp [List.sum_replicate]; norm_num)
    (by with_unfolding_all rfl)

/-- C7: every successful result echoes the input `precision` in
`precision_bits` and the input `unitary` in `unitary_type`, and its
metadata map holds exactly the keys `algorithm="QPE"`,
`provider="pennylane"`, `device="default.qubit"` and
`n_qubits = precision + 1` (main.py lines 118-131). -/
theorem execute_echo_and_meta (backend : Backend) (p : QPEParams)
    (r : QPEResult) (hv : p.Valid) (hr : execute backend p = .ok r) :
    r.precision_bits = p.precision ∧ r.unitary_type = p.unitary ∧
    r.meta =
      [("algorithm", MetaValue.s "QPE"),
       ("provider", MetaValue.s "pennylane"),
       ("device", MetaValue.s "default.qubit"),
       ("n_qubits", MetaValue.n (p.precision + 1))] := by
  cases hbk : backend (p.precision + 1) (qpe_circuit p) (List.range p.precision) with
  | error e =>
    unfold execute at hr
    rw [hbk] at hr
    exact absurd hr (by simp)
  | ok probs =>
    obtain ⟨mv, mp, _, _, rfl⟩ := execute_ok_elim hbk hr
    exact ⟨rfl, rfl, rfl⟩

/-- Witness for C7: the concrete run of `execute` on `okBackend` at `pEx3`. -/
theorem execute_echo_and_meta_witness :
    exResult.precision_bits = pEx3.precision ∧
    exResult.unitary_type = pEx3.unitary ∧
    exResult.meta =
      [("algorithm", MetaValue.s "QPE"),
       ("provider", MetaValue.s "pennylane"),
       ("device", MetaValue.s "default.qubit"),
       ("n_qubits", MetaValue.n (pEx3.precision + 1))] :=
  execute_echo_and_meta okBackend pEx3 exResult pEx3_valid
    (by with_unfolding_all rfl)

/-- C10: every successful result echoes the input angle unchanged in its
`true_phase` field (main.py line 121). -/
theorem execute_true_phase_echo (backend : Backend) (p : QPEParams)
    (r : QPEResult) (hv : p.Valid) (hr : execute backend p = .ok r) :
    r.true_phase = p.angle := by
  cases hbk : backend (p.precision + 1) (qpe_circuit p) (List.range p.precision) with
  | error e =>
    unfold execute at hr
    rw [hbk] at hr
    exact absurd hr (by simp)
  | ok probs =>
    obtain ⟨mv, mp, _, _, rfl⟩ := execute_ok_elim hbk hr
    rfl

/-- Witness for C10: the concrete run of `execute` on `okBackend8` at
`pEx3`. -/
theorem execute_true_phase_echo_witness : exResult8.true_phase = pEx3.angle :=
  execute_true_phase_echo okBackend8 pEx3 exResult8 pEx3_valid
    (by with_unfolding_all rfl)

/-- C8: `execute` is a pure function of the backend and the parameters:
two invocations with the same deterministic backend and equal parameters
yield equal outcomes (hence every result field and metadata entry equal).
The embedding has no other source of randomness or state, mirroring the
source, whose only effects are logging. -/
theorem execute_deterministic (b₁ b₂ : Backend) (p₁ p₂ : QPEParams)
    (r₁ r₂ : Except FrameworkError QPEResult)
    (hb : b₁ = b₂) (hp : p₁ = p₂)
    (h₁ : execute b₁ p₁ = r₁) (h₂ : execute b₂ p₂ = r₂) : r₁ = r₂ := by
  subst hb hp h₁ h₂
  rfl

/-- Witness for C8: two runs on `okBackend` at `pEx3` agree. -/
theorem execute_deterministic_witness :
    (Except.ok exResult : Except FrameworkError QPEResult) =
      execute okBackend pEx3 :=
  execute_deterministic okBackend okBackend pEx3 pEx3 _ _ rfl rfl
    (by with_unfolding_all rfl) rfl

/-- C3: every error escaping `execute` is of the `ValidationError` kind,
and when the backend raised the exception `e`, the escaping error carries
the message `"QPE execution failed: " ++ str(e)` — the original message,
wrapped (main.py lines 137-139). The one other raise site inside the
`try` block (numpy's argmax on an empty vector) is wrapped the same way. -/
theorem execute_wraps_errors (backend : Backend) (p : QPEParams)
    (err : FrameworkError) (h : execute backend p = .error err) :
    err.isValidation = true ∧
    (∀ e,
      backend (p.precision + 1) (qpe_circuit p) (List.range p.precision) =
        .error e →
      err = FrameworkError.validationError
        ("QPE execution failed: " ++ e.msg)) := by
  unfold execute at h
  cases hbk : backend (p.precision + 1) (qpe_circuit p) (List.range p.precision) with
  | error e =>
    rw [hbk] at h
    simp only [Except.error.injEq] at h
    subst h
    refine ⟨rfl, fun e' he' => ?_⟩
    simp only [Except.error.injEq] at he'
    rw [he']
  | ok probs =>
    rw [hbk] at h
    refine ⟨?_, fun e' he' => absurd he' (by simp)⟩
    cases probs with
    | nil =>
      simp only [npArgmax, npMax, Except.error.injEq] at h
      subst h
      rfl
    | cons x xs => simp [npArgmax, npMax] at h

/-- Witness for C3: a backend raising a non-validation exception `"boom"`
is wrapped into a `ValidationError` whose message appends the original. -/
theorem execute_wraps_errors_witness :
    (FrameworkError.validationError "QPE execution failed: boom").isValidation
        = true ∧
    (∀ e,
      boomBackend (pEx3.precision + 1) (qpe_circuit pEx3)
          (List.range pEx3.precision) = .error e →
      FrameworkError.validationError "QPE execution failed: boom" =
        FrameworkError.validationError ("QPE execution failed: " ++ e.msg)) :=
  execute_wraps_errors boomBackend pEx3 _ (by with_unfolding_all rfl)

/-- C2: constructing a `QPEParams` record from supplied raw values
succeeds exactly when `unitary` is one of the three literals, `angle` lies
in [0,1] and `precision` lies in [1,10]; every failure is of the
`ValidationError` kind; and a failed construction short-circuits the whole
pipeline before the circuit builder or backend is consulted (the outcome
is the same for every backend). -/
theorem mkQPEParams_validation (u : String) (a : ℚ) (pr : ℤ) :
    (isOkE (mkQPEParams ⟨some u, some a, some pr⟩) = true ↔
      ((u = "rotation" ∨ u = "phase" ∨ u = "z") ∧
        0 ≤ a ∧ a ≤ 1 ∧ 1 ≤ pr ∧ pr ≤ 10)) ∧
    (∀ err, mkQPEParams ⟨some u, some a, some pr⟩ = .error err →
      err.isValidation = true) ∧
    (∀ err backend, mkQPEParams ⟨some u, some a, some pr⟩ = .error err →
      runQPE backend ⟨some u, some a, some pr⟩ = .error err) := by
  have hrun : ∀ err backend,
      mkQPEParams ⟨some u, some a, some pr⟩ = .error err →
      runQPE backend ⟨some u, some a, some pr⟩ = .error err := by
    intro err backend h
    unfold runQPE
    rw [h]
    rfl
  have hred : mkQPEParams ⟨some u, some a, some pr⟩ =
      (match parseUnitary u with
       | none => .error (FrameworkError.validationError
           "unitary: input should be one of rotation, phase or z")
       | some uk =>
         if 0 ≤ a ∧ a ≤ 1 then
           if 1 ≤ pr ∧ pr ≤ 10 then
             .ok { unitary := uk, angle := a, precision := pr.toNat }
           else .error (FrameworkError.validationError
               "precision: input should be in the interval [1, 10]")
         else .error (FrameworkError.validationError
             "angle: input should be in the interval [0, 1]")) := rfl
  have hu : (parseUnitary u).isSome = true ↔
      (u = "rotation" ∨ u = "phase" ∨ u = "z") := by
    unfold parseUnitary
    split_ifs <;> simp_all
  refine ⟨?_, ?_, hrun⟩
  · rw [hred]
    cases hpu : parseUnitary u with
    | none =>
      have : ¬(u = "rotation" ∨ u = "phase" ∨ u = "z") := by
        rw [← hu, hpu]
        simp
      simp [isOkE, this]
    | some uk =>
      have : u = "rotation" ∨ u = "phase" ∨ u = "z" := by
        rw [← hu, hpu]
        simp
      split_ifs with ha hpr
      · simp only [isOkE, true_iff]
        exact ⟨this, ha.1, ha.2, hpr.1, hpr.2⟩
      · simp only [isOkE]
        exact iff_of_false (by simp)
          fun hcon => hpr ⟨hcon.2.2.2.1, hcon.2.2.2.2⟩
      · simp only [isOkE]
        exact iff_of_false (by simp)
          fun hcon => ha ⟨hcon.2.1, hcon.2.2.1⟩
  · intro err h
    rw [hred] at h
    cases hpu : parseUnitary u with
    | none =>
      rw [hpu] at h
      simp only [Except.error.injEq] at h
      subst h
      rfl
    | some uk =>
      rw [hpu] at h
      split_ifs at h <;> simp only [Except.error.injEq] at h <;>
        subst h <;> rfl

/-- Witness for C2: in-range input constructs successfully; an unknown
unitary fails with a validation error and short-circuits the pipeline for
an arbitrary backend. -/
theorem mkQPEParams_validation_witness :
    (isOkE (mkQPEParams ⟨some "rotation", some (1/2), some 3⟩) = true ↔
      (("rotation" = "rotation" ∨ "rotation" = "phase" ∨ "rotation" = "z") ∧
        0 ≤ (1/2 : ℚ) ∧ (1/2 : ℚ) ≤ 1 ∧ 1 ≤ (3 : ℤ) ∧ (3 : ℤ) ≤ 10)) ∧
    (∀ err, mkQPEParams ⟨some "rotation", some (1/2), some 3⟩ = .error err →
      err.isValidation = true) ∧
    (∀ err backend,
      mkQPEParams ⟨some "rotation", some (1/2), some 3⟩ = .error err →
      runQPE backend ⟨some "rotation", some (1/2), some 3⟩ = .error err) :=
  mkQPEParams_validation "rotation" (1/2) 3

/-- C9: defaults of the parameter constructor not stated in the spec
(main.py lines 17-28): omitting `unitary` yields `"rotation"`, omitting
`precision` yields `4`, while omitting `angle` makes construction fail. -/
theorem mkQPEParams_defaults (u : String) (a : ℚ) (pr : ℤ) :
    (∀ p', mkQPEParams ⟨none, some a, some pr⟩ = .ok p' →
      p'.unitary = UnitaryKind.rotation) ∧
    (∀ p', mkQPEParams ⟨some u, some a, none⟩ = .ok p' →
      p'.precision = 4) ∧
    isOkE (mkQPEParams ⟨some u, none, some pr⟩) = false := by
  refine ⟨?_, ?_, ?_⟩
  · intro p' h
    have hred : mkQPEParams ⟨none, some a, some pr⟩ =
        (if 0 ≤ a ∧ a ≤ 1 then
           if 1 ≤ pr ∧ pr ≤ 10 then
             .ok { unitary := UnitaryKind.rotation, angle := a,
                   precision := pr.toNat }
           else .error (FrameworkError.validationError
               "precision: input should be in the interval [1, 10]")
         else .error (FrameworkError.validationError
             "angle: input should be in the interval [0, 1]")) := rfl
    rw [hred] at h
    split_ifs at h <;> simp only [Except.ok.injEq] at h
    subst h
    rfl
  · intro p' h
    have hred : mkQPEParams ⟨some u, some a, none⟩ =
        (match parseUnitary u with
         | none => .error (FrameworkError.validationError
             "unitary: input should be one of rotation, phase or z")
         | some uk =>
           if 0 ≤ a ∧ a ≤ 1 then
             .ok { unitary := uk, angle := a, precision := 4 }
           else .error (FrameworkError.validationError
               "angle: input should be in the interval [0, 1]")) := rfl
    rw [hred] at h
    cases hpu : parseUnitary u with
    | none => rw [hpu] at h; simp at h
    | some uk =>
      rw [hpu] at h
      split_ifs at h
      simp only [Except.ok.injEq] at h
      subst h
      rfl
  · have hred : mkQPEParams ⟨some u, none, some pr⟩ =
        (match parseUnitary u with
         | none => .error (FrameworkError.validationError
             "unitary: input should be one of rotation, phase or z")
         | some _ => .error (FrameworkError.validationError
             "angle: field required")) := rfl
    rw [hred]
    cases hpu : parseUnitary u <;> rfl

/-- Witness for C9: concrete defaulted constructions. -/
theorem mkQPEParams_defaults_witness :
    (∀ p', mkQPEParams ⟨none, some (1/2), some 3⟩ = .ok p' →
      p'.unitary = UnitaryKind.rotation) ∧
    (∀ p', mkQPEParams ⟨some "phase", some (1/2), none⟩ = .ok p' →
      p'.precision = 4) ∧
    isOkE (mkQPEParams ⟨some "phase", none, some 3⟩) = false :=
  mkQPEParams_defaults "phase" (1/2) 3

/-- The gate sequence exactly as the specification describes it: a Pauli-X
on the eigenstate qubit (index `precision`), a Hadamard on each of the
`precision` estimation qubits, then for each estimation qubit `i`
(0-indexed) the chosen single-qubit unitary (parameter `2π·angle`)
controlled on qubit `i` and applied to the eigenstate qubit, repeated
`2^i` times, and finally the inverse QFT on the estimation qubits. -/
def specCircuit (p : QPEParams) : List Gate :=
  Gate.pauliX p.precision ::
    ((List.range p.precision).map Gate.hadamard
      ++ ((List.range p.precision).map fun i =>
            List.replicate (2 ^ i)
              (Gate.controlled p.unitary p.angle i p.precision)).flatten
      ++ [Gate.inverseQFT (List.range p.precision)])

/-- C5: for every valid parameter set, the circuit built by `execute` is
exactly the sequence the specification describes, it touches no wire
beyond index `precision` (so it spans `precision + 1` qubits), and the
eigenstate wire `precision` is used (by the Pauli-X). -/
theorem qpe_circuit_structure (p : QPEParams) (hv : p.Valid) :
    qpe_circuit p = specCircuit p ∧
    (∀ g ∈ qpe_circuit p, ∀ w ∈ g.wires, w < p.precision + 1) ∧
    Gate.pauliX p.precision ∈ qpe_circuit p := by
  refine ⟨by simp [qpe_circuit, specCircuit, controlled_unitary,
      List.append_assoc], ?_, by simp [qpe_circuit]⟩
  intro g hg w hw
  simp only [qpe_circuit, controlled_unitary, List.cons_append,
    List.append_assoc, List.mem_cons, List.mem_append, List.mem_map,
    List.mem_flatten, List.mem_range, List.mem_singleton,
    List.not_mem_nil, or_false, false_or] at hg
  rcases hg with rfl | ⟨i, hi, rfl⟩ | ⟨l, ⟨i, hi, rfl⟩, hgl⟩ | rfl
  · simp only [Gate.wires, List.mem_singleton] at hw
    omega
  · simp only [Gate.wires, List.mem_singleton] at hw
    omega
  · rw [List.eq_of_mem_replicate hgl] at hw
    simp only [Gate.wires, List.mem_cons, List.mem_singleton,
      List.not_mem_nil, or_false] at hw
    rcases hw with rfl | rfl <;> omega
  · simp only [Gate.wires, List.mem_range] at hw
    omega

/-- Witness for C5 at the concrete parameters `pEx3`. -/
theorem qpe_circuit_structure_witness :
    qpe_circuit pEx3 = specCircuit pEx3 ∧
    Gate.pauliX pEx3.precision ∈ qpe_circuit pEx3 ∧
    (3 : ℕ) < pEx3.precision + 1 := by
  have h := qpe_circuit_structure pEx3 pEx3_valid
  exact ⟨h.1, h.2.2, h.2.1 (Gate.pauliX pEx3.precision) h.2.2 3 (by decide)⟩
